import Mathlib

set_option maxHeartbeats 1000000
set_option maxRecDepth 10000

/-!
Shallow embedding of the chatgpt-cli program (main.go) and proofs about the
claims of its specification.  Go strings are modelled as lists of characters
(`Str`); Go `int`/`time.Duration` as `Int` (durations in nanoseconds);
Go `float64` as `GoFloat` (an exact rational, or an infinity, or NaN —
`strconv.ParseFloat` is modelled with exact rational values, so float64
rounding of long decimals, hexadecimal floats and digit-separating
underscores are outside the modelled input grammar; every input used in a
theorem below is exact).  Filesystem and HTTP effects are passed in
explicitly: file contents as `Option Str` (`none` = the file is missing),
the environment as a function `Str → Str` (Go `os.Getenv` returns the empty
string for an unset variable), and the HTTP exchange as a status code plus
body, with `encoding/json` decoding abstracted as a function parameter.
-/

/-- A Go string, as its list of characters. -/
abbrev Str := List Char

/-- The process environment: `os.Getenv`, which yields `""` for unset keys. -/
abbrev Env := Str → Str

/-- A Go `map[string]string`, as an association list (later `mapSet` wins). -/
abbrev GoMap := List (Str × Str)

/-- Go `unicode.IsSpace`: the Latin-1 white space characters together with
the Unicode `White_Space` code points. -/
def goIsSpace (c : Char) : Bool :=
  let n := c.toNat
  n == 9 || n == 10 || n == 11 || n == 12 || n == 13 || n == 32 ||
  n == 0x85 || n == 0xA0 || n == 0x1680 ||
  (decide (0x2000 ≤ n) && decide (n ≤ 0x200A)) ||
  n == 0x2028 || n == 0x2029 || n == 0x202F || n == 0x205F || n == 0x3000

/-- Remove leading white space (the left half of Go `strings.TrimSpace`). -/
def goTrimLeft (s : Str) : Str := s.dropWhile goIsSpace

/-- Remove trailing white space (the right half of Go `strings.TrimSpace`). -/
def goTrimRight (s : Str) : Str := (s.reverse.dropWhile goIsSpace).reverse

/-- Go `strings.TrimSpace`. -/
def goTrim (s : Str) : Str := goTrimRight (goTrimLeft s)

/-- Go `strings.Split(s, sep)` for a one-character separator: splits at every
occurrence of the separator, keeping empty pieces. -/
def goSplit (sep : Char) (s : Str) : List Str :=
  match s with
  | [] => [[]]
  | c :: rest =>
    match goSplit sep rest with
    | [] => [[]]
    | p :: ps => if c = sep then [] :: p :: ps else (c :: p) :: ps

/-- Go `strings.SplitN(s, "=", 2)`: the text before the first `=` and the
text after it, or `none` when the string holds no `=` (in which case the
config-file loader skips the line, since `len(parts) != 2`). -/
def splitFirstEq (s : Str) : Option (Str × Str) :=
  match s with
  | [] => none
  | c :: rest =>
    if c = '=' then some ([], rest)
    else
      match splitFirstEq rest with
      | none => none
      | some (a, b) => some (c :: a, b)

/-- Go `strings.Join(lines, "\n")`. -/
def joinLines : List Str → Str
  | [] => []
  | [l] => l
  | l :: ls => l ++ '\n' :: joinLines ls

/-- Go `strings.ToUpper`, on the ASCII letters (the config keys are ASCII). -/
def goToUpper (s : Str) : Str := s.map Char.toUpper

/-- Numeric value of a run of decimal digits. -/
def digitsVal (s : Str) : Nat := s.foldl (fun a c => a * 10 + (c.toNat - 48)) 0

/-- Lookup in a Go string map; `none` when the key is absent. -/
def mapGet? (m : GoMap) (k : Str) : Option Str :=
  match m with
  | [] => none
  | (k', v') :: rest => if k' = k then some v' else mapGet? rest k

/-- Indexing a Go string map: the empty string when the key is absent. -/
def mapGet (m : GoMap) (k : Str) : Str := (mapGet? m k).getD []

/-- Assignment `m[k] = v` on a Go string map. -/
def mapSet (m : GoMap) (k v : Str) : GoMap :=
  match m with
  | [] => [(k, v)]
  | (k', v') :: rest => if k' = k then (k, v) :: rest else (k', v') :: mapSet rest k v

/-- A Go `float64` value: an exact finite rational, a signed infinity
(`inf true` is negative infinity), or NaN. -/
inductive GoFloat where
  | finite (q : ℚ)
  | inf (neg : Bool)
  | nan
  deriving DecidableEq

/-- The Go `<` comparison on `float64`: every comparison with NaN is false. -/
def GoFloat.lt : GoFloat → GoFloat → Bool
  | .nan, _ => false
  | _, .nan => false
  | .finite a, .finite b => decide (a < b)
  | .finite _, .inf b => !b
  | .inf b, .finite _ => b
  | .inf b1, .inf b2 => b1 && !b2

/-- Case-insensitive ASCII equality, as used by `strconv` for the special
floating-point spellings. -/
def asciiEqFold (a b : Str) : Bool := a.map Char.toLower == b.map Char.toLower

/-- Split a leading `+` or `-` sign; the Bool is true for a minus sign. -/
def splitSign (s : Str) : Bool × Str :=
  match s with
  | '-' :: r => (true, r)
  | '+' :: r => (false, r)
  | r => (false, r)

/-- Go `strconv.Atoi`: an optional sign followed by decimal digits only,
with the 64-bit `int` range check (out-of-range input is an error). -/
def goAtoi (s : Str) : Option Int :=
  let (neg, rest) := splitSign s
  if rest = [] then none
  else if rest.all Char.isDigit then
    let n : Int := if neg then -(digitsVal rest : Int) else (digitsVal rest : Int)
    if n < -(2 ^ 63) ∨ 2 ^ 63 - 1 < n then none else some n
  else none

/-- Go `strconv.ParseFloat(s, 64)` on its decimal and special ("nan",
"inf", "infinity", optionally signed) forms, with the numeric value kept
exact as a rational. -/
def parseGoFloat (s : Str) : Option GoFloat :=
  if asciiEqFold s "nan".data then some .nan
  else
    let (neg, rest) := splitSign s
    if asciiEqFold rest "inf".data ∨ asciiEqFold rest "infinity".data then some (.inf neg)
    else
      let ip := rest.takeWhile Char.isDigit
      let r1 := rest.dropWhile Char.isDigit
      let (fp, r2) :=
        match r1 with
        | '.' :: r => (some (r.takeWhile Char.isDigit), r.dropWhile Char.isDigit)
        | _ => (none, r1)
      if ip = [] ∧ fp.getD [] = [] then none
      else
        let f := fp.getD []
        let mnum : Int := (digitsVal ip * 10 ^ f.length + digitsVal f : Nat)
        let snum : Int := if neg then -mnum else mnum
        let mden : Nat := 10 ^ f.length
        match r2 with
        | [] => some (.finite (mkRat snum mden))
        | c :: r =>
          if c = 'e' ∨ c = 'E' then
            let (eneg, er) := splitSign r
            let ed := er.takeWhile Char.isDigit
            let er2 := er.dropWhile Char.isDigit
            if ed = [] ∨ er2 ≠ [] then none
            else
              let e := digitsVal ed
              some (.finite (if eneg then mkRat snum (mden * 10 ^ e)
                             else mkRat (snum * 10 ^ e) mden))
          else none

/-- Nanoseconds of one unit for `time.ParseDuration`. -/
def unitNs (u : Str) : Option Nat :=
  if u = "ns".data then some 1
  else if u = "us".data then some 1000
  else if u = "µs".data then some 1000
  else if u = "μs".data then some 1000
  else if u = "ms".data then some 1000000
  else if u = "s".data then some 1000000000
  else if u = "m".data then some 60000000000
  else if u = "h".data then some 3600000000000
  else none

/-- One pass of `time.ParseDuration`: repeatedly read `digits[.digits]unit`
terms and sum their nanoseconds (fractional parts are truncated toward zero,
as Go truncates them).  The fuel equals the remaining length plus one; every
iteration consumes at least the unit, so the fuel never runs out. -/
def parseDurationLoop : Nat → Str → Nat → Option Nat
  | 0, _, _ => none
  | _ + 1, [], acc => some acc
  | fuel + 1, s, acc =>
    let ip := s.takeWhile Char.isDigit
    let r1 := s.dropWhile Char.isDigit
    let (fp, r2) :=
      match r1 with
      | '.' :: r => (some (r.takeWhile Char.isDigit), r.dropWhile Char.isDigit)
      | _ => (none, r1)
    if ip = [] ∧ fp.getD [] = [] then none
    else
      let u := r2.takeWhile (fun c => !(c = '.' || c.isDigit))
      let r3 := r2.dropWhile (fun c => !(c = '.' || c.isDigit))
      match unitNs u with
      | none => none
      | some unit =>
        let term := digitsVal ip * unit +
          (match fp with
           | some f => digitsVal f * unit / 10 ^ f.length
           | none => 0)
        parseDurationLoop fuel r3 (acc + term)

/-- Go `time.ParseDuration`: optional sign, the special case `"0"`, else one
or more number+unit terms; the result is in nanoseconds.  The int64 overflow
checks of the original are not modelled. -/
def parseGoDuration (s : Str) : Option Int :=
  let (neg, s1) := splitSign s
  if s1 = ['0'] then some 0
  else if s1 = [] then none
  else
    match parseDurationLoop (s1.length + 1) s1 0 with
    | none => none
    | some n => some (if neg then -(n : Int) else (n : Int))

/-- main.go `parseIntOrDefault`: empty or unparsable input falls back. -/
def parseIntOrDefault (value : Str) (defaultValue : Int) : Int :=
  if value = [] then defaultValue
  else
    match goAtoi value with
    | none => defaultValue
    | some n => n

/-- main.go `parseFloatOrDefault`: empty or unparsable input falls back. -/
def parseFloatOrDefault (value : Str) (defaultValue : GoFloat) : GoFloat :=
  if value = [] then defaultValue
  else
    match parseGoFloat value with
    | none => defaultValue
    | some f => f

/-- main.go `parseDurationOrDefault`: empty or unparsable input falls back. -/
def parseDurationOrDefault (value : Str) (defaultValue : Int) : Int :=
  if value = [] then defaultValue
  else
    match parseGoDuration value with
    | none => defaultValue
    | some d => d

/-- Environment variable name (main.go constants). -/
def envAPIKey : Str := "OPENAI_API_KEY".data

/-- Environment variable name (main.go constants). -/
def envAPIURL : Str := "OPENAI_API_URL".data

/-- Environment variable name (main.go constants). -/
def envModel : Str := "OPENAI_MODEL".data

/-- Environment variable name (main.go constants). -/
def envTimeout : Str := "OPENAI_TIMEOUT".data

/-- Environment variable name (main.go constants). -/
def envMaxTokens : Str := "OPENAI_MAX_TOKENS".data

/-- Environment variable name (main.go constants). -/
def envTemperature : Str := "OPENAI_TEMPERATURE".data

/-- Environment variable name (main.go constants). -/
def envConfigDir : Str := "CHATGPT_CLI_CONFIG_DIR".data

/-- Default configuration value (main.go constants). -/
def defaultAPIURL : Str := "https://api.openai.com/v1/chat/completions".data

/-- Default configuration value (main.go constants). -/
def defaultModel : Str := "gpt-3.5-turbo".data

/-- Default timeout: 60 seconds, in nanoseconds. -/
def defaultTimeout : Int := 60000000000

/-- Default configuration value (main.go constants). -/
def defaultMaxTokens : Int := 1000

/-- Default temperature 0.7. -/
def defaultTemperature : GoFloat := .finite (mkRat 7 10)

/-- The application configuration (main.go `Config`). -/
structure Config where
  APIKey : Str
  APIURL : Str
  Model : Str
  Timeout : Int
  MaxTokens : Int
  Temperature : GoFloat
  ConfigDir : Str
  deriving DecidableEq

/-- main.go `getEnvOrFileConfig`: the environment value when non-empty,
else the file value. -/
def getEnvOrFileConfig (env : Env) (envKey fileValue : Str) : Str :=
  if env envKey ≠ [] then env envKey else fileValue

/-- main.go `getEnvOrFileOrDefault`: environment value when non-empty, else
file value when non-empty, else the default. -/
def getEnvOrFileOrDefault (env : Env) (envKey fileValue defaultValue : Str) : Str :=
  if env envKey ≠ [] then env envKey
  else if fileValue ≠ [] then fileValue
  else defaultValue

/-- main.go `getConfigDir`: the `CHATGPT_CLI_CONFIG_DIR` environment value if
non-empty, else `<home>/.chatgpt-cli` (`filepath.Join` modelled as a `/`
concatenation), else the relative `.chatgpt-cli` when the home directory is
unavailable. -/
def getConfigDir (env : Env) (home : Option Str) : Str :=
  if env envConfigDir ≠ [] then env envConfigDir
  else
    match home with
    | none => ".chatgpt-cli".data
    | some h => h ++ "/.chatgpt-cli".data

/-- One iteration of the `loadConfigFile` line loop: trim the line, skip it
when empty or a `#` comment, else split at the first `=` (a line with no `=`
is skipped) and store the trimmed key and value. -/
def processConfigLine (m : GoMap) (rawLine : Str) : GoMap :=
  if goTrim rawLine = [] then m
  else if (goTrim rawLine).head? = some '#' then m
  else
    match splitFirstEq (goTrim rawLine) with
    | some (k, v) => mapSet m (goTrim k) (goTrim v)
    | none => m

/-- main.go `loadConfigFile` on the contents of `<configDir>/config`
(`none` when the file is missing or unreadable, giving the empty map). -/
def loadConfigFile (data : Option Str) : GoMap :=
  match data with
  | none => []
  | some d => (goSplit '\n' d).foldl processConfigLine []

/-- The six keys written by `saveConfigFile`, in its fixed order. -/
def settableKeys : List Str :=
  ["OPENAI_API_KEY".data, "OPENAI_API_URL".data, "OPENAI_MODEL".data,
   "OPENAI_TIMEOUT".data, "OPENAI_MAX_TOKENS".data, "OPENAI_TEMPERATURE".data]

/-- main.go `saveConfigFile`, as the text it writes: re-read the existing
file, overlay the updates, then emit a comment header (`now` is the
formatted generation time) and one `KEY=VALUE` line for each settable key
holding a non-empty value, joined with newlines plus a final newline. -/
def saveConfigFile (now : Str) (existingContents : Option Str) (updates : GoMap) : Str :=
  let existing := loadConfigFile existingContents
  let merged := updates.foldl (fun m kv => mapSet m kv.1 kv.2) existing
  let header : List Str :=
    ["# ChatGPT CLI Configuration".data, "# Generated on ".data ++ now, []]
  let keyLines := settableKeys.filterMap (fun k =>
    match mapGet? merged k with
    | some v => if v ≠ [] then some (k ++ '=' :: v) else none
    | none => none)
  joinLines (header ++ keyLines) ++ ['\n']

/-- Validation error message of `configSetCommand` for `OPENAI_TEMPERATURE`. -/
def temperatureErrMsg : Str := "temperature must be a number between 0.0 and 2.0".data

/-- Validation error message of `configSetCommand` for `OPENAI_MAX_TOKENS`. -/
def maxTokensErrMsg : Str := "max tokens must be a positive integer".data

/-- The per-key validation switch of main.go `configSetCommand` (lines
485-523), applied to the upper-cased key and the raw value. -/
def configSetValidate (rawKey value : Str) : Except Str Unit :=
  let key := goToUpper rawKey
  if key = "OPENAI_API_KEY".data then
    if value = [] then .error "API key cannot be empty".data else .ok ()
  else if key = "OPENAI_API_URL".data then
    if !("http://".data.isPrefixOf value) && !("https://".data.isPrefixOf value) then
      .error "API URL must start with http:// or https://".data
    else .ok ()
  else if key = "OPENAI_MODEL".data then
    if value = [] then .error "model cannot be empty".data else .ok ()
  else if key = "OPENAI_TIMEOUT".data then
    match parseGoDuration value with
    | none => .error "invalid timeout format (use format like 60s, 1m, 90s)".data
    | some _ => .ok ()
  else if key = "OPENAI_MAX_TOKENS".data then
    match goAtoi value with
    | none => .error maxTokensErrMsg
    | some n => if n ≤ 0 then .error maxTokensErrMsg else .ok ()
  else if key = "OPENAI_TEMPERATURE".data then
    match parseGoFloat value with
    | none => .error temperatureErrMsg
    | some t =>
      if GoFloat.lt t (.finite 0) || GoFloat.lt (.finite 2) t then .error temperatureErrMsg
      else .ok ()
  else if key = "CHATGPT_CLI_CONFIG_DIR".data then
    .error "CHATGPT_CLI_CONFIG_DIR cannot be set via config set command. Use the environment variable instead.".data
  else .error ("unknown configuration key: ".data ++ key)

/-- main.go `configSetCommand`: require key and value arguments, upper-case
the key, validate, and on success return the new config-file text written by
`saveConfigFile`. -/
def configSetRun (now : Str) (existingContents : Option Str) (args : List Str) :
    Except Str Str :=
  match args with
  | k :: v :: _ =>
    match configSetValidate k v with
    | .error e => .error e
    | .ok _ => .ok (saveConfigFile now existingContents [(goToUpper k, v)])
  | _ => .error "both key and value required".data

/-- main.go `loadConfig` after the config-directory step: resolve every field
from the environment, the parsed config-file map and the built-in defaults
(`home` is the result of `os.UserHomeDir`).  The `os.MkdirAll` call and the
reading of the file itself are the caller's concern: the parsed file map is
passed in. -/
def loadConfig (env : Env) (fileConfig : GoMap) (home : Option Str) : Config :=
  { APIKey := getEnvOrFileConfig env envAPIKey (mapGet fileConfig envAPIKey)
    APIURL := getEnvOrFileOrDefault env envAPIURL (mapGet fileConfig envAPIURL) defaultAPIURL
    Model := getEnvOrFileOrDefault env envModel (mapGet fileConfig envModel) defaultModel
    Timeout := parseDurationOrDefault
      (getEnvOrFileConfig env envTimeout (mapGet fileConfig envTimeout)) defaultTimeout
    MaxTokens := parseIntOrDefault
      (getEnvOrFileConfig env envMaxTokens (mapGet fileConfig envMaxTokens)) defaultMaxTokens
    Temperature := parseFloatOrDefault
      (getEnvOrFileConfig env envTemperature (mapGet fileConfig envTemperature)) defaultTemperature
    ConfigDir := getConfigDir env home }

/-- A chat message (main.go `Message`). -/
structure Message where
  Role : Str
  Content : Str
  deriving DecidableEq

/-- The outbound request payload (main.go `ChatRequest`). -/
structure ChatRequest where
  Model : Str
  Messages : List Message
  MaxTokens : Int
  Temperature : GoFloat
  deriving DecidableEq

/-- A remote API error (main.go `APIError`); the Go field `Type` is named
`Ty` here because `Type` is reserved in Lean. -/
structure APIError where
  Message : Str
  Ty : Str
  Code : Str
  deriving DecidableEq

/-- One choice of a chat response (main.go `Choice`). -/
structure Choice where
  Index : Int
  Message : Message
  FinishReason : Str
  deriving DecidableEq

/-- Token usage of a chat response (main.go `Usage`). -/
structure Usage where
  PromptTokens : Int
  CompletionTokens : Int
  TotalTokens : Int
  deriving DecidableEq

/-- The inbound response payload (main.go `ChatResponse`). -/
structure ChatResponse where
  ID : Str
  Object : Str
  Created : Int
  Model : Str
  Choices : List Choice
  Usage : Usage
  Error : Option APIError
  deriving DecidableEq

/-- The request construction of main.go `sendChatRequest` (lines 538-548):
the configured model, exactly one user message carrying the prompt, and the
configured token and temperature limits. -/
def buildChatRequest (config : Config) (prompt : Str) : ChatRequest :=
  { Model := config.Model
    Messages := [{ Role := "user".data, Content := prompt }]
    MaxTokens := config.MaxTokens
    Temperature := config.Temperature }

/-- The error text `unexpected status code: <code>, response: <body>`. -/
def statusErrMsg (status : Int) (body : Str) : Str :=
  "unexpected status code: ".data ++ (toString status).data ++ ", response: ".data ++ body

/-- The error text `API error: <message> (type: <type>)`. -/
def apiErrMsg (e : APIError) : Str :=
  "API error: ".data ++ e.Message ++ " (type: ".data ++ e.Ty ++ ")".data

/-- Go `strings.Join(args, " ")`. -/
def joinWords (args : List Str) : Str := List.intercalate " ".data args

/-- The response handling of main.go `sendChatRequest` (lines 584-602),
applied to the HTTP status code and body of the completed exchange;
`decode` abstracts `json.Unmarshal` into `ChatResponse` (its `.error` case
carries the unmarshalling error text).  In order: a non-200 status fails
with the status message without decoding the body; a body that fails to
decode fails with `failed to parse response`; a decoded body carrying a
populated `Error` field fails with `API error`; otherwise the decoded
response is returned. -/
def sendChatRequest (decode : Str → Except Str ChatResponse) (status : Int) (body : Str) :
    Except Str ChatResponse :=
  if status ≠ 200 then .error (statusErrMsg status body)
  else
    match decode body with
    | .error e => .error ("failed to parse response: ".data ++ e)
    | .ok r =>
      match r.Error with
      | some e => .error (apiErrMsg e)
      | none => .ok r

/-- The outcome of the argument and configuration checks at the top of
main.go `promptCommand` (lines 307-321), in source order: empty argument
list, then empty API key, then a prompt that trims to nothing; otherwise
the joined prompt is sent. -/
inductive PromptOutcome where
  | errTextRequired
  | errMissingKey
  | errEmptyPrompt
  | send (prompt : Str)
  deriving DecidableEq

/-- main.go `promptCommand` up to the network call: fail when no arguments;
fail when `config.APIKey` is empty; join the arguments with single spaces;
fail when the joined prompt trims to the empty string; otherwise send. -/
def promptCommand (apiKey : Str) (args : List Str) : PromptOutcome :=
  if args = [] then .errTextRequired
  else if apiKey = [] then .errMissingKey
  else
    let prompt := joinWords args
    if goTrim prompt = [] then .errEmptyPrompt
    else .send prompt

/-- A log record (main.go `LogEntry`); the timestamp is kept as its
serialized text since no claim inspects it. -/
structure LogEntry where
  Timestamp : Str
  Command : Str
  Prompt : Str
  Response : Str
  Error : Str
  deriving DecidableEq

/-- The lines of the log file as main.go `logsCommand` computes them:
`strings.Split(strings.TrimSpace(data), "\n")`. -/
def logLines (data : Str) : List Str := goSplit '\n' (goTrim data)

/-- The display loop of main.go `logsCommand` (lines 365-382): for each line,
with `i` its 0-based position, try to parse it as a `LogEntry` (`parse`
abstracts `json.Unmarshal`); a line that fails to parse is skipped, a line
that parses is displayed with index `i+1`. -/
def logsCommandEntries (parse : Str → Option LogEntry) (data : Str) :
    List (Nat × LogEntry) :=
  (logLines data).enum.filterMap (fun p => (parse p.2).map (fun e => (p.1 + 1, e)))

/-- The three bytes of `"..."`. -/
def dotsBytes : List Nat := [46, 46, 46]

/-- The bytes of an ASCII string (Go strings are byte slices; `truncate`
indexes bytes). -/
def strBytes (s : String) : List Nat := s.data.map Char.toNat

/-- main.go `truncate`: a string at or below `maxLen` bytes is returned
unchanged, otherwise the first `maxLen-3` bytes are kept and `"..."` is
appended; when `maxLen < 3` and the string is longer than `maxLen` the Go
slice bound `maxLen-3` is negative and the program panics (`none`). -/
def truncate (s : List Nat) (maxLen : Int) : Option (List Nat) :=
  if (s.length : Int) ≤ maxLen then some s
  else if maxLen - 3 < 0 then none
  else some (s.take (maxLen - 3).toNat ++ dotsBytes)

/-- The empty environment: every variable unset. -/
def emptyEnv : Env := fun _ => []

/-- An environment with exactly one variable set. -/
def envOf (k v : Str) : Env := fun x => if x = k then v else []

/-- Whether a `float64` value lies in the interval [0.0, 2.0] (NaN and the
infinities do not). -/
def inRange02 : GoFloat → Bool
  | .finite q => decide (0 ≤ q) && decide (q ≤ 2)
  | _ => false

/-- The configuration field named by the key `k` resolves to the value `v`:
for the string-valued keys the field equals `v` itself, for the numeric keys
the field equals the parse of `v` (timeout as a duration, max tokens as an
integer, temperature as a float). -/
def resolvesTo (c : Config) (k v : Str) : Prop :=
  if k = envAPIKey then c.APIKey = v
  else if k = envAPIURL then c.APIURL = v
  else if k = envModel then c.Model = v
  else if k = envTimeout then ∃ d, parseGoDuration v = some d ∧ c.Timeout = d
  else if k = envMaxTokens then ∃ n, goAtoi v = some n ∧ c.MaxTokens = n
  else if k = envTemperature then ∃ t, parseGoFloat v = some t ∧ c.Temperature = t
  else False

/-- A sample remote API error, as in the specification example. -/
def sampleAPIError : APIError :=
  ⟨"Invalid API key".data, "invalid_request_error".data, []⟩

/-- A sample successful chat response with no `Error` field. -/
def sampleResponse : ChatResponse :=
  ⟨"id".data, "chat.completion".data, 0, "gpt-3.5-turbo".data, [], ⟨0, 0, 0⟩, none⟩

/-- A sample chat response carrying a populated `Error` field. -/
def sampleErrResponse : ChatResponse := { sampleResponse with Error := some sampleAPIError }

/-- A JSON decoder stub that always succeeds with `sampleResponse`. -/
def decodeOkStub : Str → Except Str ChatResponse := fun _ => .ok sampleResponse

/-- A JSON decoder stub that always succeeds with `sampleErrResponse`. -/
def decodeApiErrStub : Str → Except Str ChatResponse := fun _ => .ok sampleErrResponse

/-- A JSON decoder stub that always fails (a non-JSON body). -/
def decodeErrStub : Str → Except Str ChatResponse := fun _ => .error "bad".data

/-- A log-line parser stub that parses exactly the line `ok`. -/
def logParseStub : Str → Option LogEntry :=
  fun s => if s = "ok".data then some ⟨[], [], [], [], []⟩ else none

/-- Claim C3 (counterexample): with an empty API key and a single
whitespace argument, `promptCommand` fails with the missing-API-key error,
not with `prompt cannot be empty` — the API-key check at main.go line 313
runs before the empty-prompt check at line 319, contradicting the order the
claim states. -/
theorem claim_C3_counterexample :
    promptCommand [] [" ".data] = PromptOutcome.errMissingKey ∧
    promptCommand [] [" ".data] ≠ PromptOutcome.errEmptyPrompt := by
  constructor <;> decide

/-- Claim C3 (amended): for a non-empty argument list whose elements joined
with single spaces trim to the empty string, `promptCommand` fails with
`prompt cannot be empty` only when the API key is non-empty; when the API
key is empty the missing-API-key error wins, because the API-key check
precedes the empty-prompt check. -/
theorem claim_C3_amended (apiKey : Str) (args : List Str) (h1 : args ≠ [])
    (h2 : goTrim (joinWords args) = []) :
    promptCommand apiKey args =
      (if apiKey = [] then PromptOutcome.errMissingKey else PromptOutcome.errEmptyPrompt) := by
  by_cases hk : apiKey = [] <;> simp [promptCommand, h1, h2, hk]

/-- Witness for the amended claim C3 at a concrete non-empty key and a
whitespace-only argument. -/
theorem claim_C3_amended_witness :
    promptCommand "k".data [" ".data] =
      (if ("k".data : Str) = [] then PromptOutcome.errMissingKey
       else PromptOutcome.errEmptyPrompt) :=
  claim_C3_amended "k".data [" ".data] (by decide) (by decide)

/-- Claim C4: `sendChatRequest` fails with exactly one error class, decided
in order — non-200 status gives the `unexpected status code` error without
consulting the body decoder, a 200 status with an undecodable body gives the
`failed to parse response` error, a 200 status with a decoded body whose
`Error` field is populated gives the `API error` error, and otherwise the
decoded response is returned. -/
theorem claim_C4 (decode : Str → Except Str ChatResponse) (status : Int) (body : Str) :
    (status ≠ 200 → sendChatRequest decode status body = .error (statusErrMsg status body)) ∧
    (status = 200 → ∀ e, decode body = .error e →
      sendChatRequest decode status body = .error ("failed to parse response: ".data ++ e)) ∧
    (status = 200 → ∀ r err, decode body = .ok r → r.Error = some err →
      sendChatRequest decode status body = .error (apiErrMsg err)) ∧
    (status = 200 → ∀ r, decode body = .ok r → r.Error = none →
      sendChatRequest decode status body = .ok r) := by
  refine ⟨?_, ?_, ?_, ?_⟩
  · intro h; simp [sendChatRequest, h]
  · intro h e he; simp [sendChatRequest, h, he]
  · intro h r err hr herr; simp [sendChatRequest, h, hr, herr]
  · intro h r hr herr; simp [sendChatRequest, h, hr, herr]

/-- Witness for claim C4: each of the four branches at concrete inputs —
an API-error body with HTTP 200 fails with `API error`, a non-JSON body
with HTTP 200 fails with `failed to parse response`, HTTP 400 fails with
`unexpected status code`, and a clean body is returned. -/
theorem claim_C4_witness :
    sendChatRequest decodeApiErrStub 200 "{}".data = .error (apiErrMsg sampleAPIError) ∧
    sendChatRequest decodeErrStub 200 "x".data =
      .error ("failed to parse response: ".data ++ "bad".data) ∧
    sendChatRequest decodeOkStub 400 "x".data = .error (statusErrMsg 400 "x".data) ∧
    sendChatRequest decodeOkStub 200 "{}".data = .ok sampleResponse :=
  ⟨(claim_C4 decodeApiErrStub 200 "{}".data).2.2.1 rfl sampleErrResponse sampleAPIError rfl rfl,
   (claim_C4 decodeErrStub 200 "x".data).2.1 rfl "bad".data rfl,
   (claim_C4 decodeOkStub 400 "x".data).1 (by decide),
   (claim_C4 decodeOkStub 200 "{}".data).2.2.2 rfl sampleResponse rfl rfl⟩

/-- Claim C6 (code bug): `config set OPENAI_TEMPERATURE nan` succeeds even
though NaN is not a float in [0.0, 2.0] — `strconv.ParseFloat("nan", 64)`
returns NaN without error and both NaN comparisons in
`err != nil || temp < 0 || temp > 2` are false — while the documented
concrete cases behave as claimed (2.0 and 0.0 succeed; 3.0 and -0.1 fail
with the `between 0.0 and 2.0` message; max tokens 0 and -100 fail with the
`positive integer` message and 2000 succeeds). -/
theorem claim_C6_code_divergence :
    configSetValidate "OPENAI_TEMPERATURE".data "nan".data = .ok () ∧
    parseGoFloat "nan".data = some GoFloat.nan ∧
    inRange02 GoFloat.nan = false ∧
    configSetValidate "OPENAI_TEMPERATURE".data "2.0".data = .ok () ∧
    configSetValidate "OPENAI_TEMPERATURE".data "0.0".data = .ok () ∧
    configSetValidate "OPENAI_TEMPERATURE".data "3.0".data = .error temperatureErrMsg ∧
    configSetValidate "OPENAI_TEMPERATURE".data "-0.1".data = .error temperatureErrMsg ∧
    configSetValidate "OPENAI_MAX_TOKENS".data "0".data = .error maxTokensErrMsg ∧
    configSetValidate "OPENAI_MAX_TOKENS".data "-100".data = .error maxTokensErrMsg ∧
    configSetValidate "OPENAI_MAX_TOKENS".data "2000".data = .ok () :=
  ⟨rfl, rfl, rfl, rfl, rfl, rfl, rfl, rfl, rfl, rfl⟩

/-- Claim C7: the request built by `sendChatRequest` holds exactly one
message, with role `user` and content equal to the prompt text, together
with the configuration's model, max-tokens and temperature values. -/
theorem claim_C7 (config : Config) (prompt : Str) :
    (buildChatRequest config prompt).Messages =
      [{ Role := "user".data, Content := prompt }] ∧
    (buildChatRequest config prompt).Messages.length = 1 ∧
    (buildChatRequest config prompt).Model = config.Model ∧
    (buildChatRequest config prompt).MaxTokens = config.MaxTokens ∧
    (buildChatRequest config prompt).Temperature = config.Temperature :=
  ⟨rfl, rfl, rfl, rfl, rfl⟩

/-- Claim C9 (counterexample): `truncate("hello", 2)` does not return a
truncated string at all — the length 5 exceeds `maxLen` 2, so the code
takes the slice `s[:2-3]` with a negative bound and panics (modelled as
`none`), where the claim promises a result of length exactly `maxLen`. -/
theorem claim_C9_counterexample :
    (2 : Int) < ((strBytes "hello").length : Int) ∧
    truncate (strBytes "hello") 2 = none := by
  constructor <;> decide

/-- Claim C9 (amended): `truncate(s, maxLen)` returns `s` unchanged when its
byte length is at or below `maxLen`; when the length exceeds `maxLen` and
`maxLen ≥ 3` it returns the first `maxLen-3` bytes followed by `...` (a
result of exactly `maxLen` bytes); but when the length exceeds `maxLen` and
`maxLen < 3` the slice bound `maxLen-3` is negative and the code panics. -/
theorem claim_C9_amended (s : List Nat) (maxLen : Int) :
    ((s.length : Int) ≤ maxLen → truncate s maxLen = some s) ∧
    (maxLen < (s.length : Int) → 3 ≤ maxLen →
      truncate s maxLen = some (s.take (maxLen - 3).toNat ++ dotsBytes) ∧
      ∀ t, truncate s maxLen = some t → (t.length : Int) = maxLen) ∧
    (maxLen < (s.length : Int) → maxLen < 3 → truncate s maxLen = none) := by
  refine ⟨?_, ?_, ?_⟩
  · intro h; simp [truncate, h]
  · intro h1 h2
    have hne : ¬ ((s.length : Int) ≤ maxLen) := by omega
    have hneg : ¬ (maxLen - 3 < 0) := by omega
    constructor
    · simp [truncate, hne, hneg]
    · intro t ht
      simp only [truncate, if_neg hne, if_neg hneg, Option.some.injEq] at ht
      subst ht
      have hc : ((maxLen - 3).toNat : Int) = maxLen - 3 := Int.toNat_of_nonneg (by omega)
      have hlen : (maxLen - 3).toNat ≤ s.length := by omega
      simp [List.length_take, dotsBytes, min_eq_left hlen]
      omega
  · intro h1 h2
    have hne : ¬ ((s.length : Int) ≤ maxLen) := by omega
    have hneg : maxLen - 3 < 0 := by omega
    simp [truncate, hne, hneg]

/-- Witness for the amended claim C9 at the specification's own examples. -/
theorem claim_C9_amended_witness :
    truncate (strBytes "this is a very long string") 10 = some (strBytes "this is...") ∧
    truncate (strBytes "hello") 10 = some (strBytes "hello") := by
  constructor
  · exact ((claim_C9_amended (strBytes "this is a very long string") 10).2.1
      (by decide) (by decide)).1.trans (by decide)
  · exact (claim_C9_amended (strBytes "hello") 10).1 (by decide)

/-- Claim C10: `sendChatRequest` accepts only HTTP status exactly 200 —
for every other status it fails with the `unexpected status code` error,
and the result does not depend on the body decoder (the body is never
parsed). -/
theorem claim_C10 (decode decode2 : Str → Except Str ChatResponse) (status : Int)
    (body : Str) (h : status ≠ 200) :
    sendChatRequest decode status body = .error (statusErrMsg status body) ∧
    sendChatRequest decode status body = sendChatRequest decode2 status body := by
  constructor <;> simp [sendChatRequest, h]

/-- Witness for claim C10 at the other 2xx success codes 201 and 204. -/
theorem claim_C10_witness :
    sendChatRequest decodeErrStub 201 "body".data = .error (statusErrMsg 201 "body".data) ∧
    sendChatRequest decodeErrStub 204 "ok".data = .error (statusErrMsg 204 "ok".data) :=
  ⟨(claim_C10 decodeErrStub decodeOkStub 201 "body".data (by decide)).1,
   (claim_C10 decodeErrStub decodeOkStub 204 "ok".data (by decide)).1⟩

/-- Helper: `getEnvOrFileOrDefault` never returns the empty string when the
built-in default is non-empty. -/
theorem getEnvOrFileOrDefault_ne_nil (env : Env) (k fv d : Str) (hd : d ≠ []) :
    getEnvOrFileOrDefault env k fv d ≠ [] := by
  unfold getEnvOrFileOrDefault
  split
  · assumption
  · split
    · assumption
    · exact hd

/-- Helper: the resolved config directory is never the empty string. -/
theorem getConfigDir_ne_nil (env : Env) (home : Option Str) :
    getConfigDir env home ≠ [] := by
  unfold getConfigDir
  split
  · assumption
  · cases home with
    | none => decide
    | some h =>
      intro hcontra
      rcases List.append_eq_nil.mp hcontra with ⟨-, h2⟩
      exact absurd h2 (by decide)

/-- Claim C1 (counterexample): with `OPENAI_MAX_TOKENS=-5` in the
environment, `loadConfig` succeeds but resolves `MaxTokens` to -5, which is
not a positive integer — the loader applies parsed numeric values without
any range check. -/
theorem claim_C1_counterexample :
    (loadConfig (envOf envMaxTokens "-5".data) [] (some "/home/user".data)).MaxTokens = -5 ∧
    ¬ (0 < (loadConfig (envOf envMaxTokens "-5".data) [] (some "/home/user".data)).MaxTokens) := by
  constructor <;> decide

/-- Claim C1 (amended): after a successful load, `APIURL`, `Model` and
`ConfigDir` are always non-empty; `Timeout` is non-zero, `MaxTokens` is
positive and `Temperature` lies in [0.0, 2.0] provided every value the
environment or file supplies for those keys either fails to parse (the
default then applies) or parses inside the valid range — the loader itself
never range-checks the parsed values. -/
theorem claim_C1_amended (env : Env) (m : GoMap) (home : Option Str)
    (ht : ∀ n, parseGoDuration (getEnvOrFileConfig env envTimeout (mapGet m envTimeout)) =
      some n → n ≠ 0)
    (hm : ∀ n, goAtoi (getEnvOrFileConfig env envMaxTokens (mapGet m envMaxTokens)) =
      some n → 0 < n)
    (hq : ∀ g, parseGoFloat (getEnvOrFileConfig env envTemperature (mapGet m envTemperature)) =
      some g → inRange02 g = true) :
    (loadConfig env m home).APIURL ≠ [] ∧
    (loadConfig env m home).Model ≠ [] ∧
    (loadConfig env m home).ConfigDir ≠ [] ∧
    (loadConfig env m home).Timeout ≠ 0 ∧
    0 < (loadConfig env m home).MaxTokens ∧
    inRange02 (loadConfig env m home).Temperature = true := by
  refine ⟨getEnvOrFileOrDefault_ne_nil _ _ _ _ (by decide),
          getEnvOrFileOrDefault_ne_nil _ _ _ _ (by decide),
          getConfigDir_ne_nil _ _, ?_, ?_, ?_⟩
  · show parseDurationOrDefault
      (getEnvOrFileConfig env envTimeout (mapGet m envTimeout)) defaultTimeout ≠ 0
    unfold parseDurationOrDefault
    split
    · decide
    · cases hp : parseGoDuration (getEnvOrFileConfig env envTimeout (mapGet m envTimeout)) with
      | none => simp only [hp]; decide
      | some n => simp only [hp]; exact ht n hp
  · show 0 < parseIntOrDefault
      (getEnvOrFileConfig env envMaxTokens (mapGet m envMaxTokens)) defaultMaxTokens
    unfold parseIntOrDefault
    split
    · decide
    · cases hp : goAtoi (getEnvOrFileConfig env envMaxTokens (mapGet m envMaxTokens)) with
      | none => simp only [hp]; decide
      | some n => simp only [hp]; exact hm n hp
  · show inRange02 (parseFloatOrDefault
      (getEnvOrFileConfig env envTemperature (mapGet m envTemperature)) defaultTemperature) = true
    unfold parseFloatOrDefault
    split
    · decide
    · cases hp : parseGoFloat (getEnvOrFileConfig env envTemperature (mapGet m envTemperature)) with
      | none => simp only [hp]; decide
      | some g => simp only [hp]; exact hq g hp

/-- Witness for the amended claim C1: the empty environment and missing
file resolve every field to a default satisfying the invariant. -/
theorem claim_C1_amended_witness :
    (loadConfig emptyEnv [] none).APIURL ≠ [] ∧
    (loadConfig emptyEnv [] none).Model ≠ [] ∧
    (loadConfig emptyEnv [] none).ConfigDir ≠ [] ∧
    (loadConfig emptyEnv [] none).Timeout ≠ 0 ∧
    0 < (loadConfig emptyEnv [] none).MaxTokens ∧
    inRange02 (loadConfig emptyEnv [] none).Temperature = true :=
  claim_C1_amended emptyEnv [] none
    (fun n h => by
      rw [show parseGoDuration (getEnvOrFileConfig emptyEnv envTimeout (mapGet [] envTimeout)) =
        none from rfl] at h
      exact Option.noConfusion h)
    (fun n h => by
      rw [show goAtoi (getEnvOrFileConfig emptyEnv envMaxTokens (mapGet [] envMaxTokens)) =
        none from rfl] at h
      exact Option.noConfusion h)
    (fun g h => by
      rw [show parseGoFloat (getEnvOrFileConfig emptyEnv envTemperature (mapGet [] envTemperature)) =
        none from rfl] at h
      exact Option.noConfusion h)

/-- Claim C5 (counterexample): the `ConfigDir` field does not follow the
env-over-file precedence — with no environment override and a config file
holding `CHATGPT_CLI_CONFIG_DIR=/custom`, the file value does not win:
`loadConfig` resolves `ConfigDir` from the home directory and ignores the
file entry entirely. -/
theorem claim_C5_counterexample :
    mapGet (loadConfigFile (some "CHATGPT_CLI_CONFIG_DIR=/custom".data)) envConfigDir =
      "/custom".data ∧
    emptyEnv envConfigDir = [] ∧
    (loadConfig emptyEnv (loadConfigFile (some "CHATGPT_CLI_CONFIG_DIR=/custom".data))
      (some "/home/user".data)).ConfigDir = "/home/user/.chatgpt-cli".data ∧
    ("/home/user/.chatgpt-cli".data : Str) ≠ "/custom".data := by
  refine ⟨by decide, rfl, by decide, by decide⟩

/-- Claim C5 (amended): every field except `ConfigDir` resolves with the
precedence environment variable > file value > built-in default — a set
(non-empty) environment value wins, else a non-empty file value wins, else
the default; for `Timeout`, `MaxTokens` and `Temperature` the precedence
selects the raw string, which is then parsed with fallback to the built-in
default.  `ConfigDir` is resolved from the environment else the home
directory, never from the file. -/
theorem claim_C5_amended (env : Env) (m : GoMap) (home : Option Str) :
    ((loadConfig env m home).APIKey =
      getEnvOrFileConfig env envAPIKey (mapGet m envAPIKey)) ∧
    ((loadConfig env m home).APIURL =
      getEnvOrFileOrDefault env envAPIURL (mapGet m envAPIURL) defaultAPIURL) ∧
    ((loadConfig env m home).Model =
      getEnvOrFileOrDefault env envModel (mapGet m envModel) defaultModel) ∧
    ((loadConfig env m home).Timeout =
      parseDurationOrDefault (getEnvOrFileConfig env envTimeout (mapGet m envTimeout))
        defaultTimeout) ∧
    ((loadConfig env m home).MaxTokens =
      parseIntOrDefault (getEnvOrFileConfig env envMaxTokens (mapGet m envMaxTokens))
        defaultMaxTokens) ∧
    ((loadConfig env m home).Temperature =
      parseFloatOrDefault (getEnvOrFileConfig env envTemperature (mapGet m envTemperature))
        defaultTemperature) ∧
    (∀ k fv d, (env k ≠ [] → getEnvOrFileOrDefault env k fv d = env k) ∧
      (env k = [] → fv ≠ [] → getEnvOrFileOrDefault env k fv d = fv) ∧
      (env k = [] → fv = [] → getEnvOrFileOrDefault env k fv d = d)) ∧
    (∀ k fv, (env k ≠ [] → getEnvOrFileConfig env k fv = env k) ∧
      (env k = [] → getEnvOrFileConfig env k fv = fv)) := by
  refine ⟨rfl, rfl, rfl, rfl, rfl, rfl, ?_, ?_⟩
  · intro k fv d
    refine ⟨fun h => ?_, fun h1 h2 => ?_, fun h1 h2 => ?_⟩
    · simp [getEnvOrFileOrDefault, h]
    · simp [getEnvOrFileOrDefault, h1, h2]
    · simp [getEnvOrFileOrDefault, h1, h2]
  · intro k fv
    refine ⟨fun h => ?_, fun h => ?_⟩
    · simp [getEnvOrFileConfig, h]
    · simp [getEnvOrFileConfig, h]

/-- Witness for the amended claim C5: with nothing in the environment a
file value wins over the default, and a set environment value wins over a
different file value. -/
theorem claim_C5_amended_witness :
    getEnvOrFileOrDefault emptyEnv envModel "gpt-4".data defaultModel = "gpt-4".data ∧
    getEnvOrFileConfig (envOf envModel "x".data) envModel "y".data = "x".data := by
  constructor
  · exact ((claim_C5_amended emptyEnv [] none).2.2.2.2.2.2.1 envModel "gpt-4".data
      defaultModel).2.1 rfl (by decide)
  · exact ((claim_C5_amended (envOf envModel "x".data) [] none).2.2.2.2.2.2.2 envModel
      "y".data).1 (by decide)

/-- Helper: the entries displayed by the logs loop are the successfully
parsed lines, in file order. -/
theorem logsAux_map_snd (parse : Str → Option LogEntry) (l : List Str) :
    ∀ n, ((List.enumFrom n l).filterMap
        (fun q => (parse q.2).map (fun e => (q.1 + 1, e)))).map Prod.snd
      = l.filterMap parse := by
  induction l with
  | nil => intro n; simp
  | cons x xs ih =>
    intro n
    simp only [List.enumFrom]
    cases hx : parse x with
    | none =>
      rw [List.filterMap_cons_none (by simp [hx]), List.filterMap_cons_none hx, ih]
    | some e =>
      simp only [List.filterMap_cons, hx, Option.map_some']
      simp [ih]

/-- Helper: every displayed pair carries the 1-based file position of the
line it was parsed from. -/
theorem logsAux_mem (parse : Str → Option LogEntry) (l : List Str) :
    ∀ n p, p ∈ (List.enumFrom n l).filterMap
        (fun q => (parse q.2).map (fun e => (q.1 + 1, e))) →
      n + 1 ≤ p.1 ∧ ∃ h : p.1 - 1 - n < l.length,
        parse (l.get ⟨p.1 - 1 - n, h⟩) = some p.2 := by
  induction l with
  | nil => intro n p hp; simp at hp
  | cons x xs ih =>
    intro n p hp
    simp only [List.enumFrom] at hp
    cases hx : parse x with
    | none =>
      rw [List.filterMap_cons_none (by simp [hx])] at hp
      obtain ⟨h1, h2, h3⟩ := ih (n + 1) p hp
      refine ⟨by omega, ?_⟩
      have hidx : p.1 - 1 - n = (p.1 - 1 - (n + 1)) + 1 := by omega
      rw [hidx]
      exact ⟨Nat.succ_lt_succ h2, by simpa using h3⟩
    | some e =>
      simp only [List.filterMap_cons, hx, Option.map_some'] at hp
      rcases List.mem_cons.mp hp with h | h
      · subst h
        refine ⟨le_refl _, ?_⟩
        have hidx : n + 1 - 1 - n = 0 := by omega
        rw [hidx]
        exact ⟨Nat.succ_pos _, by simpa using hx⟩
      · obtain ⟨h1, h2, h3⟩ := ih (n + 1) p h
        refine ⟨by omega, ?_⟩
        have hidx : p.1 - 1 - n = (p.1 - 1 - (n + 1)) + 1 := by omega
        rw [hidx]
        exact ⟨Nat.succ_lt_succ h2, by simpa using h3⟩

/-- Claim C8 (counterexample): with a log file whose first line fails to
parse and whose second line parses, the single displayed entry carries
index 2 — the 1-based position of its line — not index 1 as the claim's
`k-th parsed entry gets index k` rule demands: a skipped line does consume
an index. -/
theorem claim_C8_counterexample :
    logsCommandEntries logParseStub "bad\nok".data =
      [(2, (⟨[], [], [], [], []⟩ : LogEntry))] ∧
    logsCommandEntries logParseStub "bad\nok".data ≠
      [(1, (⟨[], [], [], [], []⟩ : LogEntry))] := by
  constructor <;> decide

/-- Claim C8 (amended): the displayed entries are exactly the successfully
parsed lines in file order, but each entry is displayed with the 1-based
position of its line in the file (`i+1` for line index `i`), so lines that
fail to parse leave gaps in the displayed indices rather than being
renumbered. -/
theorem claim_C8_amended (parse : Str → Option LogEntry) (data : Str) :
    ((logsCommandEntries parse data).map Prod.snd = (logLines data).filterMap parse) ∧
    (∀ p ∈ logsCommandEntries parse data, 1 ≤ p.1 ∧
      ∃ h : p.1 - 1 < (logLines data).length,
        parse ((logLines data).get ⟨p.1 - 1, h⟩) = some p.2) := by
  constructor
  · exact logsAux_map_snd parse (logLines data) 0
  · intro p hp
    obtain ⟨h1, h2, h3⟩ := logsAux_mem parse (logLines data) 0 p hp
    exact ⟨h1, by simpa using h2, by simpa using h3⟩

/-- Witness for the amended claim C8 at a concrete log file. -/
theorem claim_C8_amended_witness :
    (logsCommandEntries logParseStub "ok\nbad".data).map Prod.snd =
      (logLines "ok\nbad".data).filterMap logParseStub :=
  (claim_C8_amended logParseStub "ok\nbad".data).1

/-- Helper: dropping while a predicate holds passes over an element on which
the predicate fails. -/
theorem dropWhile_append_cons_of_neg (p : Char → Bool) (xs : Str) (c : Char) (ys : Str)
    (hc : p c = false) :
    List.dropWhile p (xs ++ c :: ys) = List.dropWhile p xs ++ c :: ys := by
  induction xs with
  | nil => simp [List.dropWhile_cons, hc]
  | cons x xs ih =>
    by_cases hx : p x
    · simp [List.dropWhile_cons, hx, ih]
    · simp [List.dropWhile_cons, hx]

/-- Helper: trimming on the left keeps a string whose head is not white
space. -/
theorem goTrimLeft_cons_of_neg (c : Char) (t : Str) (hc : goIsSpace c = false) :
    goTrimLeft (c :: t) = c :: t := by
  simp [goTrimLeft, List.dropWhile_cons, hc]

/-- Helper: trimming on the right does not cross a non-white-space
character. -/
theorem goTrimRight_append_cons (xs : Str) (c : Char) (ys : Str) (hc : goIsSpace c = false) :
    goTrimRight (xs ++ c :: ys) = xs ++ c :: goTrimRight ys := by
  unfold goTrimRight
  have h1 : (xs ++ c :: ys).reverse = ys.reverse ++ c :: xs.reverse := by simp
  rw [h1, dropWhile_append_cons_of_neg goIsSpace ys.reverse c xs.reverse hc]
  simp

/-- Helper: trimming on the right keeps the head of a string whose head is
not white space. -/
theorem goTrimRight_cons_of_neg (c : Char) (t : Str) (hc : goIsSpace c = false) :
    goTrimRight (c :: t) = c :: goTrimRight t := by
  simpa using goTrimRight_append_cons [] c t hc

/-- Helper: `goTrim` of a string with a non-space head trims only on the
right. -/
theorem goTrim_cons_of_neg (c : Char) (t : Str) (hc : goIsSpace c = false) :
    goTrim (c :: t) = c :: goTrimRight t := by
  rw [goTrim, goTrimLeft_cons_of_neg c t hc, goTrimRight_cons_of_neg c t hc]

/-- Helper: `goTrim` of a `KEY=VALUE` line whose key starts with a
non-space character trims only inside the value. -/
theorem goTrim_keyline (c : Char) (k v : Str) (hc : goIsSpace c = false) :
    goTrim ((c :: k) ++ '=' :: v) = (c :: k) ++ '=' :: goTrimRight v := by
  rw [goTrim, List.cons_append, goTrimLeft_cons_of_neg, ← List.cons_append,
    goTrimRight_append_cons]
  · decide
  · exact hc

/-- Helper: splitting a `KEY=VALUE` line at the first `=` recovers the key
and the value when the key holds no `=`. -/
theorem splitFirstEq_keyline (k v : Str) (hk : '=' ∉ k) :
    splitFirstEq (k ++ '=' :: v) = some (k, v) := by
  induction k with
  | nil => simp [splitFirstEq]
  | cons c k ih =>
    have hc : c ≠ '=' := fun h => hk (h ▸ List.mem_cons_self c k)
    have hk' : '=' ∉ k := fun h => hk (List.mem_cons_of_mem c h)
    simp [splitFirstEq, hc, ih hk']

/-- Helper: dropWhile applied twice drops no more than once. -/
theorem dropWhile_idem (p : Char → Bool) (l : Str) :
    List.dropWhile p (List.dropWhile p l) = List.dropWhile p l := by
  induction l with
  | nil => simp
  | cons x xs ih =>
    by_cases hx : p x
    · simp [List.dropWhile_cons, hx, ih]
    · simp [List.dropWhile_cons, hx]

/-- Helper: left-trimming is idempotent. -/
theorem goTrimLeft_idem (s : Str) : goTrimLeft (goTrimLeft s) = goTrimLeft s :=
  dropWhile_idem goIsSpace s

/-- Helper: right-trimming is idempotent. -/
theorem goTrimRight_idem (s : Str) : goTrimRight (goTrimRight s) = goTrimRight s := by
  unfold goTrimRight
  rw [List.reverse_reverse, dropWhile_idem]

/-- Helper: the head of a dropWhile result fails the predicate. -/
theorem dropWhile_head_neg (p : Char → Bool) (l : Str) (c : Char) (t : Str)
    (h : List.dropWhile p l = c :: t) : p c = false := by
  induction l with
  | nil => simp at h
  | cons x xs ih =>
    by_cases hx : p x
    · rw [List.dropWhile_cons_of_pos hx] at h; exact ih h
    · rw [List.dropWhile_cons_of_neg hx] at h
      cases h
      exact Bool.of_not_eq_true hx

/-- Helper: a fully trimmed string is left-trimmed. -/
theorem goTrimLeft_goTrim (s : Str) : goTrimLeft (goTrim s) = goTrim s := by
  rw [goTrim]
  cases hl : goTrimLeft s with
  | nil => simp [goTrimRight, goTrimLeft]
  | cons c t =>
    have hc : goIsSpace c = false := dropWhile_head_neg goIsSpace s c t hl
    rw [goTrimRight_cons_of_neg c t hc, goTrimLeft_cons_of_neg]
    exact hc

/-- Helper: a fully trimmed string is right-trimmed. -/
theorem goTrimRight_goTrim (s : Str) : goTrimRight (goTrim s) = goTrim s := by
  rw [goTrim, goTrimRight_idem]

/-- Helper: `goTrim` is the identity on a string that is both left- and
right-trimmed. -/
theorem goTrim_of_trimmed (s : Str) (h1 : goTrimLeft s = s) (h2 : goTrimRight s = s) :
    goTrim s = s := by
  rw [goTrim, h1, h2]

/-- Helper: a `goTrim` fixed point is both left- and right-trimmed. -/
theorem trimmed_of_goTrim_eq (s : Str) (h : goTrim s = s) :
    goTrimLeft s = s ∧ goTrimRight s = s := by
  have hsub : List.Sublist (goTrimLeft s) s := List.dropWhile_sublist goIsSpace
  have hlen1 : (goTrim s).length ≤ (goTrimLeft s).length := by
    rw [goTrim, goTrimRight, List.length_reverse]
    calc (List.dropWhile goIsSpace (goTrimLeft s).reverse).length
        ≤ (goTrimLeft s).reverse.length := (List.dropWhile_sublist goIsSpace).length_le
      _ = (goTrimLeft s).length := List.length_reverse _
  have hlen2 : (goTrimLeft s).length ≤ s.length := hsub.length_le
  have hlen : (goTrimLeft s).length = s.length := by
    rw [h] at hlen1; omega
  have hL : goTrimLeft s = s := hsub.eq_of_length hlen
  refine ⟨hL, ?_⟩
  rw [goTrim, hL] at h
  exact h

/-- Helper: `goSplit` never returns the empty list of pieces. -/
theorem goSplit_ne_nil (sep : Char) (s : Str) : goSplit sep s ≠ [] := by
  cases s with
  | nil => simp [goSplit]
  | cons c rest =>
    simp only [goSplit]
    cases goSplit sep rest with
    | nil => simp
    | cons q qs =>
      by_cases h : c = sep <;> simp [h]

/-- Helper: no piece produced by `goSplit` contains the separator. -/
theorem goSplit_not_mem (sep : Char) (s : Str) : ∀ p ∈ goSplit sep s, sep ∉ p := by
  induction s with
  | nil =>
    intro p hp
    simp only [goSplit, List.mem_singleton] at hp
    subst hp; simp
  | cons c rest ih =>
    intro p hp
    obtain ⟨q, qs, hr⟩ : ∃ q qs, goSplit sep rest = q :: qs := by
      cases hqq : goSplit sep rest with
      | nil => exact absurd hqq (goSplit_ne_nil sep rest)
      | cons q qs => exact ⟨q, qs, rfl⟩
    simp only [goSplit, hr] at hp
    by_cases hc : c = sep
    · rw [if_pos hc] at hp
      rcases List.mem_cons.mp hp with h | h
      · subst h; simp
      · exact ih p (hr ▸ h)
    · rw [if_neg hc] at hp
      rcases List.mem_cons.mp hp with h | h
      · subst h
        intro hmem
        rcases List.mem_cons.mp hmem with h1 | h1
        · exact hc h1.symm
        · exact ih q (hr ▸ List.mem_cons_self q qs) h1
      · exact ih p (hr ▸ List.mem_cons_of_mem q h)

/-- Helper: a string without the separator splits into itself alone. -/
theorem goSplit_no_sep (sep : Char) (l : Str) (h : sep ∉ l) : goSplit sep l = [l] := by
  induction l with
  | nil => rfl
  | cons c rest ih =>
    have hc : c ≠ sep := fun e => h (e ▸ List.mem_cons_self c rest)
    have hr : sep ∉ rest := fun e => h (List.mem_cons_of_mem c e)
    simp [goSplit, ih hr, hc]

/-- Helper: splitting at the first separator occurrence. -/
theorem goSplit_append_cons (sep : Char) (l r : Str) (h : sep ∉ l) :
    goSplit sep (l ++ sep :: r) = l :: goSplit sep r := by
  induction l with
  | nil =>
    simp only [List.nil_append, goSplit]
    cases hq : goSplit sep r with
    | nil => exact absurd hq (goSplit_ne_nil sep r)
    | cons q qs => simp
  | cons c rest ih =>
    have hc : c ≠ sep := fun e => h (e ▸ List.mem_cons_self c rest)
    have hr : sep ∉ rest := fun e => h (List.mem_cons_of_mem c e)
    show goSplit sep (c :: (rest ++ sep :: r)) = (c :: rest) :: goSplit sep r
    simp only [goSplit]
    rw [ih hr]
    simp [hc]

/-- Helper: splitting the joined newline-free lines plus a final newline
recovers the lines, with one final empty piece. -/
theorem goSplit_joinLines (lines : List Str) (hne : lines ≠ [])
    (h : ∀ l ∈ lines, '\n' ∉ l) :
    goSplit '\n' (joinLines lines ++ ['\n']) = lines ++ [[]] := by
  induction lines with
  | nil => exact absurd rfl hne
  | cons l ls ih =>
    cases ls with
    | nil =>
      have hl : '\n' ∉ l := h l (List.mem_cons_self _ _)
      show goSplit '\n' (joinLines [l] ++ ['\n']) = [l] ++ [[]]
      rw [show joinLines [l] = l from rfl]
      rw [goSplit_append_cons '\n' l [] hl]
      rfl
    | cons l2 ls2 =>
      have hl : '\n' ∉ l := h l (List.mem_cons_self _ _)
      have hrest : ∀ x ∈ l2 :: ls2, '\n' ∉ x := fun x hx => h x (List.mem_cons_of_mem _ hx)
      show goSplit '\n' (joinLines (l :: l2 :: ls2) ++ ['\n']) = _
      rw [show joinLines (l :: l2 :: ls2) = l ++ '\n' :: joinLines (l2 :: ls2) from rfl,
        List.append_assoc, List.cons_append,
        goSplit_append_cons '\n' l (joinLines (l2 :: ls2) ++ ['\n']) hl,
        ih (by simp) hrest]
      rfl

/-- Helper: trimming only removes characters. -/
theorem mem_of_mem_goTrim (s : Str) (x : Char) (h : x ∈ goTrim s) : x ∈ s := by
  unfold goTrim goTrimRight at h
  rw [List.mem_reverse] at h
  have h2 := (List.dropWhile_sublist goIsSpace).subset h
  rw [List.mem_reverse] at h2
  exact (List.dropWhile_sublist goIsSpace).subset h2

/-- Helper: both halves of a first-`=` split draw their characters from the
split string. -/
theorem splitFirstEq_mem (s a b : Str) (h : splitFirstEq s = some (a, b)) :
    (∀ x ∈ a, x ∈ s) ∧ (∀ x ∈ b, x ∈ s) := by
  induction s generalizing a b with
  | nil => simp [splitFirstEq] at h
  | cons c rest ih =>
    simp only [splitFirstEq] at h
    by_cases hc : c = '='
    · rw [if_pos hc] at h
      simp only [Option.some.injEq, Prod.mk.injEq] at h
      obtain ⟨ha, hb⟩ := h
      subst ha; subst hb
      exact ⟨fun x hx => absurd hx (List.not_mem_nil x),
        fun x hx => List.mem_cons_of_mem _ hx⟩
    · rw [if_neg hc] at h
      cases hs : splitFirstEq rest with
      | none => rw [hs] at h; simp at h
      | some p =>
        obtain ⟨a', b'⟩ := p
        rw [hs] at h
        simp only [Option.some.injEq, Prod.mk.injEq] at h
        obtain ⟨ha, hb⟩ := h
        subst ha; subst hb
        obtain ⟨iha, ihb⟩ := ih a' b' hs
        constructor
        · intro x hx
          rcases List.mem_cons.mp hx with h1 | h1
          · exact h1 ▸ List.mem_cons_self _ _
          · exact List.mem_cons_of_mem _ (iha x h1)
        · intro x hx
          exact List.mem_cons_of_mem _ (ihb x hx)

/-- Helper: looking up the key just assigned. -/
theorem mapGet?_mapSet_self (m : GoMap) (k v : Str) :
    mapGet? (mapSet m k v) k = some v := by
  induction m with
  | nil => simp [mapSet, mapGet?]
  | cons p rest ih =>
    obtain ⟨k', v'⟩ := p
    by_cases h : k' = k
    · simp [mapSet, h, mapGet?]
    · simp [mapSet, h, mapGet?, ih]

/-- Helper: assignment to a different key does not change a lookup. -/
theorem mapGet?_mapSet_ne (m : GoMap) (k1 k2 v : Str) (h : k1 ≠ k2) :
    mapGet? (mapSet m k1 v) k2 = mapGet? m k2 := by
  induction m with
  | nil => simp [mapSet, mapGet?, h]
  | cons p rest ih =>
    obtain ⟨k', v'⟩ := p
    by_cases hk : k' = k1
    · subst hk
      simp [mapSet, mapGet?, h]
    · simp [mapSet, hk, mapGet?, ih]

/-- Helper: a value found after an assignment is the assigned value or was
already present. -/
theorem mapGet?_mapSet_cases (m : GoMap) (k1 k2 v w : Str)
    (h : mapGet? (mapSet m k1 v) k2 = some w) :
    (k2 = k1 ∧ w = v) ∨ mapGet? m k2 = some w := by
  by_cases hk : k1 = k2
  · subst hk
    rw [mapGet?_mapSet_self] at h
    injection h with h
    exact Or.inl ⟨rfl, h.symm⟩
  · right
    rw [mapGet?_mapSet_ne m k1 k2 v hk] at h
    exact h

/-- Helper: one config line stores only trimmed, newline-free values. -/
theorem processConfigLine_values (m : GoMap) (l : Str) (hl : '\n' ∉ l)
    (hm : ∀ k v, mapGet? m k = some v →
      '\n' ∉ v ∧ goTrimLeft v = v ∧ goTrimRight v = v) :
    ∀ k v, mapGet? (processConfigLine m l) k = some v →
      '\n' ∉ v ∧ goTrimLeft v = v ∧ goTrimRight v = v := by
  intro k v hv
  unfold processConfigLine at hv
  split at hv
  · exact hm k v hv
  · split at hv
    · exact hm k v hv
    · cases hs : splitFirstEq (goTrim l) with
      | none => simp only [hs] at hv; exact hm k v hv
      | some p =>
        obtain ⟨a, b⟩ := p
        simp only [hs] at hv
        rcases mapGet?_mapSet_cases m (goTrim a) k (goTrim b) v hv with ⟨hk, hw⟩ | hold
        · subst hw
          refine ⟨?_, goTrimLeft_goTrim b, goTrimRight_goTrim b⟩
          intro hmem
          have h1 : '\n' ∈ b := mem_of_mem_goTrim b _ hmem
          have h2 : '\n' ∈ goTrim l := (splitFirstEq_mem (goTrim l) a b hs).2 _ h1
          exact hl (mem_of_mem_goTrim l _ h2)
        · exact hm k v hold

/-- Helper: the config-line fold preserves the trimmed, newline-free value
invariant. -/
theorem foldl_processConfigLine_values (lines : List Str) :
    ∀ m, (∀ l ∈ lines, '\n' ∉ l) →
      (∀ k v, mapGet? m k = some v → '\n' ∉ v ∧ goTrimLeft v = v ∧ goTrimRight v = v) →
      ∀ k v, mapGet? (lines.foldl processConfigLine m) k = some v →
        '\n' ∉ v ∧ goTrimLeft v = v ∧ goTrimRight v = v := by
  induction lines with
  | nil => intro m _ hm; exact hm
  | cons l ls ih =>
    intro m hlines hm
    rw [List.foldl_cons]
    exact ih (processConfigLine m l)
      (fun x hx => hlines x (List.mem_cons_of_mem _ hx))
      (processConfigLine_values m l (hlines l (List.mem_cons_self _ _)) hm)

/-- Helper: every value stored by `loadConfigFile` is trimmed and
newline-free. -/
theorem loadConfigFile_values (d : Option Str) :
    ∀ k v, mapGet? (loadConfigFile d) k = some v →
      '\n' ∉ v ∧ goTrimLeft v = v ∧ goTrimRight v = v := by
  intro k v hv
  cases d with
  | none => simp [loadConfigFile, mapGet?] at hv
  | some s =>
    refine foldl_processConfigLine_values (goSplit '\n' s) [] ?_ ?_ k v hv
    · intro l hl hmem
      exact goSplit_not_mem '\n' s l hl hmem
    · intro k v h
      simp [mapGet?] at h

/-- Helper: a comment line changes nothing. -/
theorem processConfigLine_hash (m : GoMap) (t : Str) :
    processConfigLine m ('#' :: t) = m := by
  unfold processConfigLine
  rw [goTrim_cons_of_neg '#' t (by decide)]
  rw [if_neg (by simp)]
  simp

/-- Helper: an empty line changes nothing. -/
theorem processConfigLine_nil (m : GoMap) : processConfigLine m [] = m := rfl

/-- Helper: a well-formed `KEY=VALUE` line stores exactly that key and
value. -/
theorem processConfigLine_keyline (m : GoMap) (c : Char) (k v : Str)
    (hc : goIsSpace c = false) (hch : c ≠ '#') (hk : '=' ∉ c :: k)
    (hkt : goTrim (c :: k) = c :: k)
    (hv1 : goTrimLeft v = v) (hv2 : goTrimRight v = v) :
    processConfigLine m ((c :: k) ++ '=' :: v) = mapSet m (c :: k) v := by
  have htrim : goTrim ((c :: k) ++ '=' :: v) = (c :: k) ++ '=' :: v := by
    rw [goTrim_keyline c k v hc, hv2]
  unfold processConfigLine
  rw [htrim, if_neg (by simp), if_neg (by simp [hch]), splitFirstEq_keyline (c :: k) v hk]
  show mapSet m (goTrim (c :: k)) (goTrim v) = mapSet m (c :: k) v
  rw [hkt, goTrim_of_trimmed v hv1 hv2]

/-- Helper: folding the emitted key lines for keys other than `K` leaves the
lookup of `K` unchanged. -/
theorem fold_keyLines_other (M : GoMap) (K : Str) (keys : List Str)
    (hkeys : ∀ k ∈ keys, k ≠ K ∧ k ≠ [] ∧ goIsSpace k.headI = false ∧ k.headI ≠ '#' ∧
      '=' ∉ k ∧ goTrim k = k)
    (hM : ∀ k v, mapGet? M k = some v → goTrimLeft v = v ∧ goTrimRight v = v) :
    ∀ m, mapGet? ((keys.filterMap (fun k =>
        match mapGet? M k with
        | some v => if v ≠ [] then some (k ++ '=' :: v) else none
        | none => none)).foldl processConfigLine m) K = mapGet? m K := by
  induction keys with
  | nil => intro m; simp
  | cons k0 ks ih =>
    intro m
    obtain ⟨hne, hnil, hsp, hhash, heq, htr⟩ := hkeys k0 (List.mem_cons_self _ _)
    have ihk := ih (fun k hk => hkeys k (List.mem_cons_of_mem _ hk))
    obtain ⟨c, k0', rfl⟩ := List.exists_cons_of_ne_nil hnil
    simp only [List.headI] at hsp hhash
    cases hv : mapGet? M (c :: k0') with
    | none =>
      rw [List.filterMap_cons_none (by simp [hv])]
      exact ihk m
    | some v =>
      by_cases hvnil : v = []
      · rw [List.filterMap_cons_none (by simp [hv, hvnil])]
        exact ihk m
      · simp only [List.filterMap_cons, hv]
        rw [if_pos hvnil]
        rw [List.foldl_cons]
        rw [processConfigLine_keyline m c k0' v hsp hhash heq htr
          (hM _ v hv).1 (hM _ v hv).2]
        rw [ihk (mapSet m (c :: k0') v)]
        exact mapGet?_mapSet_ne m (c :: k0') K v hne

/-- Helper: folding the emitted key lines stores `K`'s value when `K` is an
emitted key with a non-empty value. -/
theorem fold_keyLines_lookup (M : GoMap) (K V : Str) (keys : List Str)
    (hkeys : ∀ k ∈ keys, k ≠ [] ∧ goIsSpace k.headI = false ∧ k.headI ≠ '#' ∧
      '=' ∉ k ∧ goTrim k = k)
    (hnd : keys.Nodup)
    (hM : ∀ k v, mapGet? M k = some v → goTrimLeft v = v ∧ goTrimRight v = v)
    (hK : K ∈ keys) (hMK : mapGet? M K = some V) (hV : V ≠ []) :
    ∀ m, mapGet? ((keys.filterMap (fun k =>
        match mapGet? M k with
        | some v => if v ≠ [] then some (k ++ '=' :: v) else none
        | none => none)).foldl processConfigLine m) K = some V := by
  induction keys with
  | nil => exact absurd hK (List.not_mem_nil K)
  | cons k0 ks ih =>
    intro m
    obtain ⟨hnil, hsp, hhash, heq, htr⟩ := hkeys k0 (List.mem_cons_self _ _)
    have hksprops := fun k hk => hkeys k (List.mem_cons_of_mem _ hk)
    rcases List.mem_cons.mp hK with hKk0 | hKks
    · subst hKk0
      obtain ⟨c, k0', hdec⟩ := List.exists_cons_of_ne_nil hnil
      have hnotmem : K ∉ ks := (List.nodup_cons.mp hnd).1
      simp only [List.filterMap_cons, hMK]
      rw [if_pos hV, List.foldl_cons]
      rw [hdec] at hsp hhash ⊢
      simp only [List.headI] at hsp hhash
      rw [processConfigLine_keyline m c k0' V hsp hhash (hdec ▸ heq) (hdec ▸ htr)
        (trimmed_of_goTrim_eq V ((hM K V hMK).1 ▸ goTrim_of_trimmed V (hM K V hMK).1
          (hM K V hMK).2)).1 (hM K V hMK).2]
      rw [fold_keyLines_other M (c :: k0') ks
        (fun k hk => ⟨fun h => hnotmem (by rw [hdec]; exact h ▸ hk), hksprops k hk⟩) hM
        (mapSet m (c :: k0') V)]
      exact mapGet?_mapSet_self m (c :: k0') V
    · have hk0ne : k0 ≠ K := fun h => (List.nodup_cons.mp hnd).1 (h ▸ hKks)
      have ihm := ih hksprops (List.nodup_cons.mp hnd).2 hKks
      cases hv : mapGet? M k0 with
      | none =>
        rw [List.filterMap_cons_none (by simp [hv])]
        exact ihm m
      | some v =>
        by_cases hvnil : v = []
        · rw [List.filterMap_cons_none (by simp [hv, hvnil])]
          exact ihm m
        · obtain ⟨c, k0', rfl⟩ := List.exists_cons_of_ne_nil hnil
          simp only [List.headI] at hsp hhash
          simp only [List.filterMap_cons, hv]
          rw [if_pos hvnil, List.foldl_cons]
          rw [processConfigLine_keyline m c k0' v hsp hhash heq htr
            (hM _ v hv).1 (hM _ v hv).2]
          exact ihm (mapSet m (c :: k0') v)

/-- Helper: the config file written by `saveConfigFile` for a single update
`K=V` (with `V` non-empty, trimmed and newline-free) reads back with `K`
bound to `V`. -/
theorem saveLoad_roundTrip (K V now : Str) (existing : Option Str)
    (hK : K ∈ settableKeys) (hV : V ≠ [])
    (hvl : goTrimLeft V = V) (hvr : goTrimRight V = V)
    (hvn : '\n' ∉ V) (hnn : '\n' ∉ now) :
    mapGet? (loadConfigFile (some (saveConfigFile now existing [(K, V)]))) K = some V := by
  have hMvals : ∀ k v, mapGet? (mapSet (loadConfigFile existing) K V) k = some v →
      goTrimLeft v = v ∧ goTrimRight v = v := by
    intro k v hkv
    rcases mapGet?_mapSet_cases (loadConfigFile existing) K k V v hkv with ⟨hk, hw⟩ | hold
    · subst hw; exact ⟨hvl, hvr⟩
    · exact ⟨(loadConfigFile_values existing k v hold).2.1,
        (loadConfigFile_values existing k v hold).2.2⟩
  have hMnl : ∀ k v, mapGet? (mapSet (loadConfigFile existing) K V) k = some v →
      '\n' ∉ v := by
    intro k v hkv
    rcases mapGet?_mapSet_cases (loadConfigFile existing) K k V v hkv with ⟨hk, hw⟩ | hold
    · subst hw; exact hvn
    · exact (loadConfigFile_values existing k v hold).1
  have hsave : saveConfigFile now existing [(K, V)] =
      joinLines (["# ChatGPT CLI Configuration".data, "# Generated on ".data ++ now,
        ([] : Str)] ++ settableKeys.filterMap (fun k =>
          match mapGet? (mapSet (loadConfigFile existing) K V) k with
          | some v => if v ≠ [] then some (k ++ '=' :: v) else none
          | none => none)) ++ ['\n'] := by
    simp only [saveConfigFile, List.foldl_cons, List.foldl_nil]
  have hlinesNoNl : ∀ l ∈ (["# ChatGPT CLI Configuration".data,
      "# Generated on ".data ++ now, ([] : Str)] ++
      settableKeys.filterMap (fun k =>
        match mapGet? (mapSet (loadConfigFile existing) K V) k with
        | some v => if v ≠ [] then some (k ++ '=' :: v) else none
        | none => none)), '\n' ∉ l := by
    intro l hl
    rcases List.mem_append.mp hl with h | h
    · rcases List.mem_cons.mp h with rfl | h
      · decide
      · rcases List.mem_cons.mp h with rfl | h
        · intro hm
          rcases List.mem_append.mp hm with h1 | h1
          · exact absurd h1 (by decide)
          · exact hnn h1
        · rcases List.mem_cons.mp h with rfl | h
          · simp
          · exact absurd h (List.not_mem_nil l)
    · obtain ⟨k, hk, hfk⟩ := List.mem_filterMap.mp h
      split at hfk
      · rename_i v heq
        split at hfk
        · injection hfk with hfk
          subst hfk
          intro hm
          rcases List.mem_append.mp hm with h1 | h1
          · have hks : ∀ k ∈ settableKeys, '\n' ∉ k := by decide
            exact hks k hk h1
          · rcases List.mem_cons.mp h1 with h2 | h2
            · exact absurd h2 (by decide)
            · exact hMnl k v heq h2
        · exact absurd hfk (by simp)
      · exact absurd hfk (by simp)
  rw [hsave]
  show mapGet? ((goSplit '\n' _).foldl processConfigLine []) K = some V
  rw [goSplit_joinLines _ (by simp) hlinesNoNl]
  rw [List.foldl_append, List.foldl_append]
  have hheader : List.foldl processConfigLine []
      ["# ChatGPT CLI Configuration".data, "# Generated on ".data ++ now, ([] : Str)] = [] := by
    simp only [List.foldl_cons, List.foldl_nil]
    rw [show processConfigLine [] "# ChatGPT CLI Configuration".data = [] from by decide]
    rw [show ("# Generated on ".data ++ now : Str) = '#' :: (" Generated on ".data ++ now)
      from rfl]
    rw [processConfigLine_hash, processConfigLine_nil]
  rw [hheader]
  rw [show ∀ m : GoMap, List.foldl processConfigLine m [([] : Str)] = m from
    fun m => by simp [List.foldl_cons, List.foldl_nil, processConfigLine_nil]]
  exact fold_keyLines_lookup (mapSet (loadConfigFile existing) K V) K V settableKeys
    (by decide) (by decide) hMvals hK (mapGet?_mapSet_self _ K V) hV []

/-- Helper: map indexing under a known lookup. -/
theorem mapGet_of_mapGet? (m : GoMap) (k v : Str) (h : mapGet? m k = some v) :
    mapGet m k = v := by
  unfold mapGet
  rw [h]
  rfl

/-- Helper: with the environment variable unset the file value is used. -/
theorem getEnvOrFileConfig_file (env : Env) (k fv : Str) (he : env k = []) :
    getEnvOrFileConfig env k fv = fv := by
  simp [getEnvOrFileConfig, he]

/-- Helper: with the environment variable unset a non-empty file value wins
over the default. -/
theorem getEnvOrFileOrDefault_file (env : Env) (k fv d : Str) (he : env k = [])
    (hf : fv ≠ []) : getEnvOrFileOrDefault env k fv d = fv := by
  simp [getEnvOrFileOrDefault, he, hf]

/-- Helper: a parsable non-empty duration string resolves to its parse. -/
theorem parseDurationOrDefault_some (v : Str) (d n : Int) (hv : v ≠ [])
    (hp : parseGoDuration v = some n) : parseDurationOrDefault v d = n := by
  simp [parseDurationOrDefault, hv, hp]

/-- Helper: a parsable non-empty integer string resolves to its parse. -/
theorem parseIntOrDefault_some (v : Str) (d n : Int) (hv : v ≠ [])
    (hp : goAtoi v = some n) : parseIntOrDefault v d = n := by
  simp [parseIntOrDefault, hv, hp]

/-- Helper: a parsable non-empty float string resolves to its parse. -/
theorem parseFloatOrDefault_some (v : Str) (d t : GoFloat) (hv : v ≠ [])
    (hp : parseGoFloat v = some t) : parseFloatOrDefault v d = t := by
  simp [parseFloatOrDefault, hv, hp]

/-- Claim C2 (counterexample): `config set OPENAI_MODEL " "` succeeds (a
single space is a non-empty model), but the written line `OPENAI_MODEL= `
is trimmed on reload to an empty value, so the subsequent load resolves
`Model` to the built-in default `gpt-3.5-turbo`, not to the value that was
set. -/
theorem claim_C2_counterexample :
    configSetRun "2025-01-01 00:00:00".data none ["OPENAI_MODEL".data, " ".data] =
      .ok (saveConfigFile "2025-01-01 00:00:00".data none
        [("OPENAI_MODEL".data, " ".data)]) ∧
    (loadConfig emptyEnv
      (loadConfigFile (some (saveConfigFile "2025-01-01 00:00:00".data none
        [("OPENAI_MODEL".data, " ".data)]))) none).Model = "gpt-3.5-turbo".data ∧
    ¬ resolvesTo (loadConfig emptyEnv
      (loadConfigFile (some (saveConfigFile "2025-01-01 00:00:00".data none
        [("OPENAI_MODEL".data, " ".data)]))) none) "OPENAI_MODEL".data " ".data := by
  refine ⟨rfl, by decide, ?_⟩
  intro h
  simp +decide [resolvesTo] at h

/-- Claim C2 (amended): after `config set K V` succeeds, a subsequent load
with no environment value for `K` resolves `K` to `V`, provided `V`
contains no newline and carries no leading or trailing white space;
otherwise the value is mangled, because `loadConfigFile` trims every loaded
value (and a newline would split it across lines) — e.g. setting
`OPENAI_MODEL` to a single space reloads as the default model. -/
theorem claim_C2_amended (K V now : Str) (existing : Option Str) (env : Env)
    (home : Option Str) (contents : Str)
    (hk : K ∈ settableKeys)
    (hrun : configSetRun now existing [K, V] = .ok contents)
    (hvt : goTrim V = V) (hvn : '\n' ∉ V) (hnn : '\n' ∉ now)
    (henv : env K = []) :
    resolvesTo (loadConfig env (loadConfigFile (some contents)) home) K V := by
  obtain ⟨hvl, hvr⟩ := trimmed_of_goTrim_eq V hvt
  simp only [settableKeys, List.mem_cons, List.not_mem_nil, or_false] at hk
  rcases hk with rfl | rfl | rfl | rfl | rfl | rfl
  · -- OPENAI_API_KEY
    have hgu : goToUpper "OPENAI_API_KEY".data = "OPENAI_API_KEY".data := by decide
    have hV : V ≠ [] := by
      intro h; subst h
      simp +decide [configSetRun, configSetValidate, hgu] at hrun
    have hcont : contents = saveConfigFile now existing [("OPENAI_API_KEY".data, V)] := by
      have h2 := hrun
      simp +decide [configSetRun, configSetValidate, hgu, hV] at h2
      exact h2.symm
    subst hcont
    have hmap : mapGet? (loadConfigFile (some (saveConfigFile now existing
        [("OPENAI_API_KEY".data, V)]))) envAPIKey = some V :=
      saveLoad_roundTrip "OPENAI_API_KEY".data V now existing (by decide) hV hvl hvr hvn hnn
    show getEnvOrFileConfig env envAPIKey (mapGet (loadConfigFile (some (saveConfigFile now
      existing [("OPENAI_API_KEY".data, V)]))) envAPIKey) = V
    rw [getEnvOrFileConfig_file env envAPIKey _ henv]
    exact mapGet_of_mapGet? _ _ _ hmap
  · -- OPENAI_API_URL
    have hgu : goToUpper "OPENAI_API_URL".data = "OPENAI_API_URL".data := by decide
    cases hc : (!("http://".data.isPrefixOf V) && !("https://".data.isPrefixOf V)) with
    | true =>
      exfalso
      simp +decide [configSetRun, configSetValidate, hgu, hc] at hrun
    | false =>
    have hV : V ≠ [] := by
      intro h; subst h
      rw [show (!("http://".data.isPrefixOf ([] : Str)) &&
        !("https://".data.isPrefixOf ([] : Str))) = true from by decide] at hc
      cases hc
    have hcont : contents = saveConfigFile now existing [("OPENAI_API_URL".data, V)] := by
      have h2 := hrun
      simp +decide [configSetRun, configSetValidate, hgu, hc] at h2
      exact h2.symm
    subst hcont
    have hmap : mapGet? (loadConfigFile (some (saveConfigFile now existing
        [("OPENAI_API_URL".data, V)]))) envAPIURL = some V :=
      saveLoad_roundTrip "OPENAI_API_URL".data V now existing (by decide) hV hvl hvr hvn hnn
    show getEnvOrFileOrDefault env envAPIURL (mapGet (loadConfigFile (some (saveConfigFile now
      existing [("OPENAI_API_URL".data, V)]))) envAPIURL) defaultAPIURL = V
    rw [mapGet_of_mapGet? _ _ _ hmap]
    exact getEnvOrFileOrDefault_file env envAPIURL V defaultAPIURL henv hV
  · -- OPENAI_MODEL
    have hgu : goToUpper "OPENAI_MODEL".data = "OPENAI_MODEL".data := by decide
    have hV : V ≠ [] := by
      intro h; subst h
      simp +decide [configSetRun, configSetValidate, hgu] at hrun
    have hcont : contents = saveConfigFile now existing [("OPENAI_MODEL".data, V)] := by
      have h2 := hrun
      simp +decide [configSetRun, configSetValidate, hgu, hV] at h2
      exact h2.symm
    subst hcont
    have hmap : mapGet? (loadConfigFile (some (saveConfigFile now existing
        [("OPENAI_MODEL".data, V)]))) envModel = some V :=
      saveLoad_roundTrip "OPENAI_MODEL".data V now existing (by decide) hV hvl hvr hvn hnn
    show getEnvOrFileOrDefault env envModel (mapGet (loadConfigFile (some (saveConfigFile now
      existing [("OPENAI_MODEL".data, V)]))) envModel) defaultModel = V
    rw [mapGet_of_mapGet? _ _ _ hmap]
    exact getEnvOrFileOrDefault_file env envModel V defaultModel henv hV
  · -- OPENAI_TIMEOUT
    have hgu : goToUpper "OPENAI_TIMEOUT".data = "OPENAI_TIMEOUT".data := by decide
    obtain ⟨n, hp⟩ : ∃ n, parseGoDuration V = some n := by
      cases hp : parseGoDuration V with
      | none =>
        exfalso
        simp +decide [configSetRun, configSetValidate, hgu, hp] at hrun
      | some n => exact ⟨n, rfl⟩
    have hV : V ≠ [] := by
      intro h; subst h
      rw [show parseGoDuration ([] : Str) = none from rfl] at hp
      cases hp
    have hcont : contents = saveConfigFile now existing [("OPENAI_TIMEOUT".data, V)] := by
      have h2 := hrun
      simp +decide [configSetRun, configSetValidate, hgu, hp] at h2
      exact h2.symm
    subst hcont
    have hmap : mapGet? (loadConfigFile (some (saveConfigFile now existing
        [("OPENAI_TIMEOUT".data, V)]))) envTimeout = some V :=
      saveLoad_roundTrip "OPENAI_TIMEOUT".data V now existing (by decide) hV hvl hvr hvn hnn
    show ∃ d, parseGoDuration V = some d ∧
      parseDurationOrDefault (getEnvOrFileConfig env envTimeout
        (mapGet (loadConfigFile (some (saveConfigFile now existing
          [("OPENAI_TIMEOUT".data, V)]))) envTimeout)) defaultTimeout = d
    refine ⟨n, hp, ?_⟩
    rw [getEnvOrFileConfig_file env envTimeout _ henv, mapGet_of_mapGet? _ _ _ hmap]
    exact parseDurationOrDefault_some V defaultTimeout n hV hp
  · -- OPENAI_MAX_TOKENS
    have hgu : goToUpper "OPENAI_MAX_TOKENS".data = "OPENAI_MAX_TOKENS".data := by decide
    obtain ⟨n, hp, hn0⟩ : ∃ n, goAtoi V = some n ∧ ¬(n ≤ 0) := by
      cases hp : goAtoi V with
      | none =>
        exfalso
        simp +decide [configSetRun, configSetValidate, hgu, hp] at hrun
      | some n =>
        by_cases hn : n ≤ 0
        · exfalso
          simp +decide [configSetRun, configSetValidate, hgu, hp, hn] at hrun
        · exact ⟨n, rfl, hn⟩
    have hV : V ≠ [] := by
      intro h; subst h
      rw [show goAtoi ([] : Str) = none from rfl] at hp
      cases hp
    have hcont : contents = saveConfigFile now existing [("OPENAI_MAX_TOKENS".data, V)] := by
      have h2 := hrun
      simp +decide [configSetRun, configSetValidate, hgu, hp, hn0] at h2
      exact h2.symm
    subst hcont
    have hmap : mapGet? (loadConfigFile (some (saveConfigFile now existing
        [("OPENAI_MAX_TOKENS".data, V)]))) envMaxTokens = some V :=
      saveLoad_roundTrip "OPENAI_MAX_TOKENS".data V now existing (by decide) hV hvl hvr hvn hnn
    show ∃ m, goAtoi V = some m ∧
      parseIntOrDefault (getEnvOrFileConfig env envMaxTokens
        (mapGet (loadConfigFile (some (saveConfigFile now existing
          [("OPENAI_MAX_TOKENS".data, V)]))) envMaxTokens)) defaultMaxTokens = m
    refine ⟨n, hp, ?_⟩
    rw [getEnvOrFileConfig_file env envMaxTokens _ henv, mapGet_of_mapGet? _ _ _ hmap]
    exact parseIntOrDefault_some V defaultMaxTokens n hV hp
  · -- OPENAI_TEMPERATURE
    have hgu : goToUpper "OPENAI_TEMPERATURE".data = "OPENAI_TEMPERATURE".data := by decide
    obtain ⟨t, hp, hb⟩ : ∃ t, parseGoFloat V = some t ∧
        (GoFloat.lt t (GoFloat.finite 0) || GoFloat.lt (GoFloat.finite 2) t) = false := by
      cases hp : parseGoFloat V with
      | none =>
        exfalso
        simp +decide [configSetRun, configSetValidate, hgu, hp] at hrun
      | some t =>
        cases hb : (GoFloat.lt t (GoFloat.finite 0) || GoFloat.lt (GoFloat.finite 2) t) with
        | true =>
          exfalso
          simp +decide [configSetRun, configSetValidate, hgu, hp, hb] at hrun
        | false => exact ⟨t, rfl, hb⟩
    have hV : V ≠ [] := by
      intro h; subst h
      rw [show parseGoFloat ([] : Str) = none from rfl] at hp
      cases hp
    have hcont : contents = saveConfigFile now existing [("OPENAI_TEMPERATURE".data, V)] := by
      have h2 := hrun
      simp +decide [configSetRun, configSetValidate, hgu, hp, hb] at h2
      exact h2.symm
    subst hcont
    have hmap : mapGet? (loadConfigFile (some (saveConfigFile now existing
        [("OPENAI_TEMPERATURE".data, V)]))) envTemperature = some V :=
      saveLoad_roundTrip "OPENAI_TEMPERATURE".data V now existing (by decide) hV hvl hvr hvn hnn
    show ∃ t, parseGoFloat V = some t ∧
      parseFloatOrDefault (getEnvOrFileConfig env envTemperature
        (mapGet (loadConfigFile (some (saveConfigFile now existing
          [("OPENAI_TEMPERATURE".data, V)]))) envTemperature)) defaultTemperature = t
    refine ⟨t, hp, ?_⟩
    rw [getEnvOrFileConfig_file env envTemperature _ henv, mapGet_of_mapGet? _ _ _ hmap]
    exact parseFloatOrDefault_some V defaultTemperature t hV hp

/-- Witness for the amended claim C2: `config set OPENAI_MODEL gpt-4`
round-trips through the config file to a resolved `Model` of `gpt-4`. -/
theorem claim_C2_amended_witness :
    resolvesTo (loadConfig emptyEnv (loadConfigFile (some (saveConfigFile
      "2025-01-01 00:00:00".data none [("OPENAI_MODEL".data, "gpt-4".data)]))) none)
      "OPENAI_MODEL".data "gpt-4".data :=
  claim_C2_amended "OPENAI_MODEL".data "gpt-4".data "2025-01-01 00:00:00".data none
    emptyEnv none _ (by decide) rfl (by decide) (by decide) (by decide) rfl
